import Mathlib

/-!
Shallow embedding of the Substrate contracts pallet
(`src/frame/contracts/src/lib.rs`): data model, dispatchables and the
block hook, together with theorems checking the natural-language
specification against them.

Machine integers are modelled as `Nat`; where a Rust cast can wrap
(`as u32`) the reduction modulo `2 ^ 32` is explicit.  Fallible Rust
code returns `Except`.  Components of the repository that are not part
of the provided sources (the `rent`, `storage`, `wasm` and `schedule`
modules, and the external `Currency` and origin machinery) are modelled
from the spec or abstracted as function parameters, as noted on each
definition.
-/

namespace ContractsPallet

/-- Account identifiers, balances, block numbers and weights are machine
integers in the runtime; byte strings are lists of byte values. -/
abbrev AccountId := Nat

abbrev Balance := Nat

abbrev BlockNumber := Nat

abbrev Weight := Nat

abbrev Bytes := List Nat

/-- TrieId from the source: an opaque byte vector identifying a child trie. -/
abbrev TrieId := List Nat

/-- Dispatch-level `pays_fee` flag of `PostDispatchInfo`. -/
inductive Pays where
  | yes
  | no
deriving DecidableEq, Repr

/-- Error enum of the pallet (`Error<T>` in the source), extended with the
dispatch-level `BadOrigin` raised by `ensure_signed`/`ensure_root` and the
`DeadAccount` error of the external `Currency::deposit_into_existing`. -/
inductive CError where
  | InvalidScheduleVersion
  | InvalidSurchargeClaim
  | InvalidSourceContract
  | InvalidDestinationContract
  | InvalidTombstone
  | InvalidContractOrigin
  | OutOfGas
  | OutputBufferTooSmall
  | BelowSubsistenceThreshold
  | NewContractNotFunded
  | TransferFailed
  | MaxCallDepthReached
  | NotCallable
  | CodeTooLarge
  | CodeNotFound
  | OutOfBounds
  | DecodingFailed
  | ContractTrapped
  | ValueTooLarge
  | ReentranceDenied
  | InputAlreadyRead
  | RandomSubjectTooLong
  | TooManyTopics
  | DuplicateTopics
  | NoChainExtension
  | DeletionQueueFull
  | ContractNotEvictable
  | StorageExhausted
  | DuplicateContract
  | BadOrigin
  | DeadAccount
deriving DecidableEq, Repr

/-- Access errors of `Module::get_storage` (from `pallet_contracts_primitives`,
as used in the source). -/
inductive ContractAccessError where
  | DoesntExist
  | IsTombstone
deriving DecidableEq, Repr

/-- Runtime origins relevant to this pallet: `RawOrigin::Signed`,
`RawOrigin::None` (inherent) and `RawOrigin::Root`. -/
inductive COrigin where
  | signed (account : AccountId)
  | inherent
  | root
deriving DecidableEq, Repr

/-- Address derivation from the source (`Module::contract_address`): the
buffer is built by chaining the deployer's bytes, the code hash bytes and
the salt, then hashing; the account id is the unchecked cast of the hash.
The runtime's hasher and the `UncheckedFrom` cast are type parameters of
the pallet and appear here as function arguments. -/
def contract_address (uncheckedFrom : Bytes → α) (hashing : Bytes → Bytes)
    (deploying_address : Bytes) (code_hash : Bytes) (salt : Bytes) : α :=
  uncheckedFrom (hashing ((deploying_address ++ code_hash) ++ salt))

/-- SCALE compact encoding of a `u32` length value, as produced by
`parity-scale-codec` for slice lengths. -/
def compactEncode (n : Nat) : List Nat :=
  if n < 64 then [n * 4]
  else if n < 16384 then
    let v := n * 4 + 1
    [v % 256, (v / 256) % 256]
  else if n < 1073741824 then
    let v := n * 4 + 2
    [v % 256, (v / 256) % 256, (v / 65536) % 256, (v / 16777216) % 256]
  else
    [3, n % 256, (n / 256) % 256, (n / 65536) % 256, (n / 16777216) % 256]

/-- SCALE encoding of a byte slice (`&[u8]`): the compact-encoded length
(cast to `u32`) followed by the raw bytes.  This is what
`storage_root.using_encoded(..)` feeds into the tombstone buffer. -/
def scaleEncodeBytes (bs : Bytes) : Bytes :=
  compactEncode (bs.length % 4294967296) ++ bs

/-- Tombstone record from the source: a single digest. -/
structure RawTombstoneContractInfo where
  digest : Bytes
deriving DecidableEq, Repr

/-- Constructor `RawTombstoneContractInfo::new` from the source: the buffer
is the SCALE encoding of `storage_root` (`using_encoded` adds the compact
length prefix) followed by the raw bytes of `code_hash`, then hashed. -/
def RawTombstoneContractInfo.new (hash : Bytes → Bytes)
    (storage_root : Bytes) (code_hash : Bytes) : RawTombstoneContractInfo :=
  ⟨hash (scaleEncodeBytes storage_root ++ code_hash)⟩

/-- Per-contract record `RawAliveContractInfo` from the source, with the
pallet's concrete type parameters (code hash bytes, `Nat` balances and
block numbers). -/
structure RawAliveContractInfo where
  trie_id : TrieId
  storage_size : Nat
  pair_count : Nat
  code_hash : Bytes
  rent_allowance : Balance
  rent_payed : Balance
  deduct_block : BlockNumber
  last_write : Option BlockNumber
  _reserved : Option Unit
deriving DecidableEq, Repr

/-- Tagged union `ContractInfo` from the source. -/
inductive ContractInfo where
  | Alive (info : RawAliveContractInfo)
  | Tombstone (info : RawTombstoneContractInfo)
deriving DecidableEq, Repr

/-- Method `ContractInfo::get_alive` from the source. -/
def ContractInfo.get_alive : ContractInfo → Option RawAliveContractInfo
  | .Alive alive => some alive
  | _ => none

/-- Method `ContractInfo::get_tombstone` from the source. -/
def ContractInfo.get_tombstone : ContractInfo → Option RawTombstoneContractInfo
  | .Tombstone tombstone => some tombstone
  | _ => none

/-- Persistent state read by `Module::get_storage`: the `ContractInfoOf`
map and the per-contract child tries keyed by `trie_id`. -/
structure GState where
  contractInfoOf : AccountId → Option ContractInfo
  childTrie : TrieId → Bytes → Option Bytes

/-- Modelled from the spec: `Storage::read(trie_id, key32) -> Option<bytes>`
(the `storage` module is not among the provided sources); it is a lookup
in the contract's child trie. -/
def Storage.read (st : GState) (trie_id : TrieId) (key : Bytes) : Option Bytes :=
  st.childTrie trie_id key

/-- Dispatchable-adjacent query `Module::get_storage` from the source:
fetch the contract info, require it to be alive, then read the child trie. -/
def get_storage (st : GState) (address : AccountId) (key : Bytes) :
    Except ContractAccessError (Option Bytes) :=
  match st.contractInfoOf address with
  | none => .error .DoesntExist
  | some contract_info =>
    match contract_info.get_alive with
    | none => .error .IsTombstone
    | some alive => .ok (Storage.read st alive.trie_id key)

/-- Modelled from the spec: the `Schedule` cost table (the `schedule`
module is not among the provided sources).  Only the `version` field is
relevant to the claims; the remaining cost entries are kept opaque. -/
structure Schedule where
  version : Nat
  costTable : List Nat
deriving DecidableEq, Repr

/-- Events of the pallet (`Event<T>` in the source), restricted to the
payload shapes the claims observe. -/
inductive Event where
  | Instantiated (deployer : AccountId) (contract : AccountId)
  | Evicted (contract : AccountId)
  | Terminated (contract : AccountId) (beneficiary : AccountId)
  | Restored (restorer : AccountId) (dest : AccountId) (code_hash : Bytes) (rent_allowance : Balance)
  | CodeStored (code_hash : Bytes)
  | ScheduleUpdated (version : Nat)
  | ContractEmitted (contract : AccountId) (data : Bytes)
  | CodeRemoved (code_hash : Bytes)
deriving DecidableEq, Repr

/-- State accessed by `update_schedule`: the stored `CurrentSchedule` and
the system event log appended to by `deposit_event`. -/
structure SState where
  currentSchedule : Schedule
  events : List Event
deriving DecidableEq, Repr

/-- Dispatchable `update_schedule` from the source: `ensure_root`, reject a
strictly smaller version with `InvalidScheduleVersion`, deposit the
`ScheduleUpdated` event, store the schedule. -/
def update_schedule (origin : COrigin) (schedule : Schedule) (st : SState) :
    Except CError SState :=
  match origin with
  | .root =>
    if st.currentSchedule.version > schedule.version then
      .error .InvalidScheduleVersion
    else
      .ok ⟨schedule, st.events ++ [.ScheduleUpdated schedule.version]⟩
  | _ => .error .BadOrigin

/-- Pallet configuration constants used by `claim_surcharge`. -/
structure SurchargeConfig where
  signedClaimHandicap : BlockNumber
  surchargeReward : Balance
deriving DecidableEq, Repr

/-- Balance state for `claim_surcharge`: the external `Currency` module's
account map; `none` means the account does not exist. -/
structure CState where
  accounts : AccountId → Option Balance

/-- Point update of the account map. -/
def CState.setAccount (st : CState) (who : AccountId) (balance : Balance) : CState :=
  ⟨fun a => if a = who then some balance else st.accounts a⟩

/-- External collaborator `Currency::deposit_into_existing` (the balances
module is outside this pallet): adds to an existing account's balance and
fails on a dead account. -/
def deposit_into_existing (st : CState) (who : AccountId) (amount : Balance) :
    Except CError CState :=
  match st.accounts who with
  | some balance => .ok (st.setAccount who (balance + amount))
  | none => .error .DeadAccount

/-- Dispatchable `claim_surcharge` from the source.  The `Rent::try_eviction`
call (the `rent` module is not among the provided sources) is passed as the
function argument `tryEviction`; its `Ok` result is
`(Option rent_payed, code_len)` as in the source.  The result pairs the
dispatch outcome with the `pays_fee` flag of its `PostDispatchInfo`
(`Pays::No` only on the successful-eviction branch; every error keeps the
default `Pays::Yes`). -/
def claim_surcharge (cfg : SurchargeConfig)
    (tryEviction : AccountId → BlockNumber → Except CError (Option Balance × Nat))
    (origin : COrigin) (dest : AccountId) (aux_sender : Option AccountId)
    (st : CState) : Except CError CState × Pays :=
  let signedRewarded : Except CError (Bool × AccountId) :=
    match origin, aux_sender with
    | .signed account, none => .ok (true, account)
    | .inherent, some aux => .ok (false, aux)
    | _, _ => .error .InvalidSurchargeClaim
  match signedRewarded with
  | .error e => (.error e, .yes)
  | .ok (signed, rewarded) =>
    let handicap : BlockNumber := if signed then cfg.signedClaimHandicap else 0
    match tryEviction dest handicap with
    | .error e => (.error e, .yes)
    | .ok (some rent_payed, _code_len) =>
      match deposit_into_existing st rewarded (min cfg.surchargeReward rent_payed) with
      | .ok st2 => (.ok st2, .no)
      | .error e => (.error e, .yes)
    | .ok (none, _code_len) => (.error .ContractNotEvictable, .yes)

/-- Abstraction of an instrumented `PrefabWasmModule`: the claims only
observe its `code_len()` (a `u32` in the source). -/
structure PrefabWasmModule where
  code_len : Nat
deriving DecidableEq, Repr

/-- Dispatchable `instantiate_with_code` from the source, keeping the parts
the claims are about: `ensure_signed`, the pre-instrumentation
`ensure!(code_len <= MaxCodeSize)` on the raw byte length (cast to `u32`),
the instrumentation `PrefabWasmModule::from_code` (the `wasm` module is not
among the provided sources, so it is the function argument `from_code`),
the post-instrumentation `ensure!` on `code_len()`, and the delegation to
`ExecutionContext::instantiate` (the argument `instantiate`). -/
def instantiate_with_code (maxCodeSize : Nat)
    (from_code : Bytes → Except CError PrefabWasmModule)
    (instantiate : PrefabWasmModule → Except CError α)
    (origin : COrigin) (code : Bytes) : Except CError α :=
  match origin with
  | .signed _ =>
    if code.length % 4294967296 ≤ maxCodeSize then
      match from_code code with
      | .error e => .error e
      | .ok executable =>
        if executable.code_len ≤ maxCodeSize then instantiate executable
        else .error .CodeTooLarge
    else .error .CodeTooLarge
  | _ => .error .BadOrigin

/-- Saturation bound of the `u64` `Weight` type. -/
def weightMax : Nat := 18446744073709551615

/-- Saturating `u64` addition (`saturating_add` on `Weight`). -/
def satAdd (a b : Weight) : Weight := min (a + b) weightMax

/-- Weight limit computed by the `on_initialize` hook in the source:
`max_block.saturating_sub(block_weight_total).min(DeletionWeightLimit)`
(`Nat` subtraction is saturating). -/
def on_initialize_weight_limit (maxBlock consumed deletionWeightLimit : Weight) : Weight :=
  min (maxBlock - consumed) deletionWeightLimit

/-- Block hook `on_initialize` from the source: hand the computed limit to
`Storage::process_deletion_queue_batch` (the `storage` module is not among
the provided sources, so the batch is the function argument `batch`,
returning the weight it consumed) and add the benchmarked base weight
`T::WeightInfo::on_initialize()` (the argument `baseWeight`). -/
def on_initialize (maxBlock consumed deletionWeightLimit baseWeight : Weight)
    (batch : Weight → Weight) : Weight :=
  satAdd (batch (on_initialize_weight_limit maxBlock consumed deletionWeightLimit)) baseWeight

/-- C3: `contract_address(deploying_address, code_hash, salt)` equals the
hash of the byte concatenation `deploying_address ++ code_hash ++ salt`
(cast into an account id), and is a pure function of exactly those three
arguments: two invocations with equal arguments return the same address. -/
theorem contract_address_pure_hash (uncheckedFrom : Bytes → α)
    (hashing : Bytes → Bytes) (a h s a2 h2 s2 : Bytes) :
    contract_address uncheckedFrom hashing a h s
        = uncheckedFrom (hashing (a ++ h ++ s))
    ∧ (a = a2 → h = h2 → s = s2 →
        contract_address uncheckedFrom hashing a h s
          = contract_address uncheckedFrom hashing a2 h2 s2) := by
  constructor
  · simp [contract_address, List.append_assoc]
  · intro ha hh hs
    rw [ha, hh, hs]

theorem contract_address_pure_hash_witness :
    contract_address (fun b => b) (fun b => 0 :: b) [1] [2] [3]
        = (fun b : Bytes => b) ((fun b => 0 :: b) ([1] ++ [2] ++ [3]))
    ∧ contract_address (fun b : Bytes => b) (fun b => 0 :: b) [1] [2] [3]
        = contract_address (fun b => b) (fun b => 0 :: b) [1] [2] [3] :=
  ⟨(contract_address_pure_hash (fun b => b) (fun b => 0 :: b) [1] [2] [3] [1] [2] [3]).1,
   (contract_address_pure_hash (fun b => b) (fun b => 0 :: b) [1] [2] [3] [1] [2] [3]).2
     rfl rfl rfl⟩

/-- C4 counterexample: the tombstone digest is not the hash of the raw
concatenation `storage_root ++ code_hash`.  With the hasher instantiated
to the identity and both inputs empty, the buffer that is hashed is the
one-byte compact length prefix `[0]`, not the empty concatenation. -/
theorem tombstone_raw_concat_counterexample :
    (RawTombstoneContractInfo.new (fun b => b) [] []).digest
      ≠ (fun b : Bytes => b) (([] : Bytes) ++ ([] : Bytes)) := by
  decide

/-- C4 amended: `RawTombstoneContractInfo::new(storage_root, code_hash)`
stores the digest `H(scale(storage_root) ++ code_hash)`, where
`scale(storage_root)` is the SCALE encoding of the byte slice: the
compact-encoded length (as `u32`) followed by the raw bytes. -/
theorem tombstone_scale_encoded_digest (hash : Bytes → Bytes)
    (storage_root code_hash : Bytes) :
    (RawTombstoneContractInfo.new hash storage_root code_hash).digest
      = hash (compactEncode (storage_root.length % 4294967296)
          ++ (storage_root ++ code_hash)) := by
  simp [RawTombstoneContractInfo.new, scaleEncodeBytes, List.append_assoc]

/-- C2: for a root-origin `update_schedule(S)`: the call fails with
`InvalidScheduleVersion` exactly when `S.version` is strictly smaller than
the stored schedule's version; otherwise `S` is stored and a
`ScheduleUpdated(S.version)` event is emitted; and for any origin a
successful call never decreases the stored schedule version. -/
theorem update_schedule_version_spec (st : SState) (s : Schedule) :
    (update_schedule .root s st = .error .InvalidScheduleVersion
        ↔ s.version < st.currentSchedule.version)
    ∧ (st.currentSchedule.version ≤ s.version →
        update_schedule .root s st
          = .ok ⟨s, st.events ++ [.ScheduleUpdated s.version]⟩)
    ∧ (∀ origin st2, update_schedule origin s st = .ok st2 →
        st.currentSchedule.version ≤ st2.currentSchedule.version) := by
  refine ⟨⟨?_, ?_⟩, ?_, ?_⟩
  · intro heq
    by_contra hlt
    have hv : ¬ st.currentSchedule.version > s.version := hlt
    simp [update_schedule, if_neg hv] at heq
  · intro hlt
    simp [update_schedule, if_pos hlt]
  · intro hle
    have hv : ¬ st.currentSchedule.version > s.version := by omega
    simp [update_schedule, if_neg hv]
  · intro origin st2 hok
    cases origin with
    | signed account => simp [update_schedule] at hok
    | inherent => simp [update_schedule] at hok
    | root =>
      by_cases hv : st.currentSchedule.version > s.version
      · simp only [update_schedule, if_pos hv] at hok
        exact absurd hok (by simp)
      · simp only [update_schedule, if_neg hv] at hok
        injection hok with h2
        subst h2
        exact Nat.le_of_not_lt hv

theorem update_schedule_version_spec_witness :
    update_schedule .root ⟨2, []⟩ ⟨⟨1, []⟩, []⟩
        = .ok ⟨⟨2, []⟩, [.ScheduleUpdated 2]⟩
    ∧ (⟨⟨1, []⟩, []⟩ : SState).currentSchedule.version
        ≤ (⟨⟨2, []⟩, [.ScheduleUpdated 2]⟩ : SState).currentSchedule.version :=
  ⟨(update_schedule_version_spec ⟨⟨1, []⟩, []⟩ ⟨2, []⟩).2.1 (by decide),
   (update_schedule_version_spec ⟨⟨1, []⟩, []⟩ ⟨2, []⟩).2.2 .root
     ⟨⟨2, []⟩, [.ScheduleUpdated 2]⟩
     ((update_schedule_version_spec ⟨⟨1, []⟩, []⟩ ⟨2, []⟩).2.1 (by decide))⟩

/-- C8: `Module::get_storage` returns `DoesntExist` when `ContractInfoOf`
has no entry for the address, `IsTombstone` when the entry is a tombstone,
and `Ok(Storage::read(trie_id, key))` when the entry is alive; it is a
pure read of the state (the embedding returns no modified state, matching
the source function, which takes no mutable access). -/
theorem get_storage_spec (st : GState) (address : AccountId) (key : Bytes) :
    (st.contractInfoOf address = none →
        get_storage st address key = .error .DoesntExist)
    ∧ (∀ t, st.contractInfoOf address = some (.Tombstone t) →
        get_storage st address key = .error .IsTombstone)
    ∧ (∀ alive, st.contractInfoOf address = some (.Alive alive) →
        get_storage st address key = .ok (Storage.read st alive.trie_id key)) := by
  refine ⟨?_, ?_, ?_⟩
  · intro hnone
    simp [get_storage, hnone]
  · intro t ht
    simp [get_storage, ht, ContractInfo.get_alive]
  · intro alive halive
    simp [get_storage, halive, ContractInfo.get_alive]

theorem get_storage_spec_witness :
    get_storage
        ⟨fun a => if a = 0 then none
          else if a = 1 then some (.Tombstone ⟨[]⟩)
          else some (.Alive ⟨[], 0, 0, [], 0, 0, 0, none, none⟩),
         fun _ _ => some [7]⟩ 0 []
      = .error .DoesntExist
    ∧ get_storage
        ⟨fun a => if a = 0 then none
          else if a = 1 then some (.Tombstone ⟨[]⟩)
          else some (.Alive ⟨[], 0, 0, [], 0, 0, 0, none, none⟩),
         fun _ _ => some [7]⟩ 1 []
      = .error .IsTombstone
    ∧ get_storage
        ⟨fun a => if a = 0 then none
          else if a = 1 then some (.Tombstone ⟨[]⟩)
          else some (.Alive ⟨[], 0, 0, [], 0, 0, 0, none, none⟩),
         fun _ _ => some [7]⟩ 2 []
      = .ok (some [7]) :=
  ⟨(get_storage_spec _ 0 []).1 rfl,
   (get_storage_spec _ 1 []).2.1 ⟨[]⟩ rfl,
   (get_storage_spec _ 2 []).2.2 ⟨[], 0, 0, [], 0, 0, 0, none, none⟩ rfl⟩

/-- C1: for both valid origin shapes of `claim_surcharge(dest, aux_sender)`:
when `Rent::try_eviction` (at the origin's handicap) reports an eviction
with some `rent_payed` and the claimant's account exists with balance `b`,
the claimant is paid exactly `min(SurchargeReward, rent_payed)` and the
dispatch succeeds with `pays_fee = No`; when it reports the contract is
not evictable, the dispatch fails with `ContractNotEvictable` and keeps
the fee-paying default `Pays::Yes`. -/
theorem claim_surcharge_payout_spec (cfg : SurchargeConfig)
    (tryEviction : AccountId → BlockNumber → Except CError (Option Balance × Nat))
    (dest : AccountId) (st : CState) :
    (∀ account b rent_payed code_len,
        st.accounts account = some b →
        tryEviction dest cfg.signedClaimHandicap = .ok (some rent_payed, code_len) →
        claim_surcharge cfg tryEviction (.signed account) dest none st
          = (.ok (st.setAccount account (b + min cfg.surchargeReward rent_payed)), .no))
    ∧ (∀ account code_len,
        tryEviction dest cfg.signedClaimHandicap = .ok (none, code_len) →
        claim_surcharge cfg tryEviction (.signed account) dest none st
          = (.error .ContractNotEvictable, .yes))
    ∧ (∀ aux b rent_payed code_len,
        st.accounts aux = some b →
        tryEviction dest 0 = .ok (some rent_payed, code_len) →
        claim_surcharge cfg tryEviction .inherent dest (some aux) st
          = (.ok (st.setAccount aux (b + min cfg.surchargeReward rent_payed)), .no))
    ∧ (∀ aux code_len,
        tryEviction dest 0 = .ok (none, code_len) →
        claim_surcharge cfg tryEviction .inherent dest (some aux) st
          = (.error .ContractNotEvictable, .yes)) := by
  refine ⟨?_, ?_, ?_, ?_⟩
  · intro account b rent_payed code_len hacc hte
    simp [claim_surcharge, hte, deposit_into_existing, hacc]
  · intro account code_len hte
    simp [claim_surcharge, hte]
  · intro aux b rent_payed code_len hacc hte
    simp [claim_surcharge, hte, deposit_into_existing, hacc]
  · intro aux code_len hte
    simp [claim_surcharge, hte]

theorem claim_surcharge_payout_spec_witness :
    claim_surcharge ⟨5, 10⟩
        (fun _ h => if h = 5 then .ok (some 20, 7) else .ok (none, 7))
        (.signed 0) 1 none ⟨fun a => if a = 0 then some 100 else none⟩
      = (.ok (CState.setAccount ⟨fun a => if a = 0 then some 100 else none⟩ 0
          (100 + min 10 20)), .no)
    ∧ claim_surcharge ⟨5, 10⟩
        (fun _ h => if h = 5 then .ok (some 20, 7) else .ok (none, 7))
        .inherent 1 (some 0) ⟨fun a => if a = 0 then some 100 else none⟩
      = (.error .ContractNotEvictable, .yes)
    ∧ claim_surcharge ⟨5, 10⟩
        (fun _ h => if h = 5 then .ok (none, 7) else .ok (some 20, 7))
        (.signed 0) 1 none ⟨fun a => if a = 0 then some 100 else none⟩
      = (.error .ContractNotEvictable, .yes)
    ∧ claim_surcharge ⟨5, 10⟩
        (fun _ h => if h = 5 then .ok (none, 7) else .ok (some 20, 7))
        .inherent 1 (some 0) ⟨fun a => if a = 0 then some 100 else none⟩
      = (.ok (CState.setAccount ⟨fun a => if a = 0 then some 100 else none⟩ 0
          (100 + min 10 20)), .no) :=
  ⟨(claim_surcharge_payout_spec ⟨5, 10⟩
      (fun _ h => if h = 5 then .ok (some 20, 7) else .ok (none, 7)) 1
      ⟨fun a => if a = 0 then some 100 else none⟩).1 0 100 20 7 rfl rfl,
   (claim_surcharge_payout_spec ⟨5, 10⟩
      (fun _ h => if h = 5 then .ok (some 20, 7) else .ok (none, 7)) 1
      ⟨fun a => if a = 0 then some 100 else none⟩).2.2.2 0 7 rfl,
   (claim_surcharge_payout_spec ⟨5, 10⟩
      (fun _ h => if h = 5 then .ok (none, 7) else .ok (some 20, 7)) 1
      ⟨fun a => if a = 0 then some 100 else none⟩).2.1 0 7 rfl,
   (claim_surcharge_payout_spec ⟨5, 10⟩
      (fun _ h => if h = 5 then .ok (none, 7) else .ok (some 20, 7)) 1
      ⟨fun a => if a = 0 then some 100 else none⟩).2.2.1 0 100 20 7 rfl rfl⟩

/-- C7: the outcome of `claim_surcharge` depends on `Rent::try_eviction`
only through its value at `(dest, SignedClaimHandicap)` when the origin is
signed, and only through its value at `(dest, 0)` when the origin is
inherent: the dispatchable invokes `try_eviction` with exactly that
handicap for every destination account. -/
theorem claim_surcharge_handicap_spec (cfg : SurchargeConfig)
    (te1 te2 : AccountId → BlockNumber → Except CError (Option Balance × Nat))
    (dest : AccountId) (st : CState) :
    (∀ account, te1 dest cfg.signedClaimHandicap = te2 dest cfg.signedClaimHandicap →
        claim_surcharge cfg te1 (.signed account) dest none st
          = claim_surcharge cfg te2 (.signed account) dest none st)
    ∧ (∀ aux, te1 dest 0 = te2 dest 0 →
        claim_surcharge cfg te1 .inherent dest (some aux) st
          = claim_surcharge cfg te2 .inherent dest (some aux) st) := by
  constructor
  · intro account h
    simp [claim_surcharge, h]
  · intro aux h
    simp [claim_surcharge, h]

theorem claim_surcharge_handicap_spec_witness :
    claim_surcharge ⟨5, 10⟩ (fun _ h => .ok (none, h)) (.signed 0) 1 none
        ⟨fun _ => some 0⟩
      = claim_surcharge ⟨5, 10⟩
          (fun _ h => if h = 5 then .ok (none, 5) else .error .OutOfGas)
          (.signed 0) 1 none ⟨fun _ => some 0⟩
    ∧ claim_surcharge ⟨5, 10⟩ (fun _ h => .ok (none, h)) .inherent 1 (some 0)
        ⟨fun _ => some 0⟩
      = claim_surcharge ⟨5, 10⟩
          (fun _ h => if h = 0 then .ok (none, 0) else .error .OutOfGas)
          .inherent 1 (some 0) ⟨fun _ => some 0⟩ :=
  ⟨(claim_surcharge_handicap_spec ⟨5, 10⟩ (fun _ h => .ok (none, h))
      (fun _ h => if h = 5 then .ok (none, 5) else .error .OutOfGas) 1
      ⟨fun _ => some 0⟩).1 0 rfl,
   (claim_surcharge_handicap_spec ⟨5, 10⟩ (fun _ h => .ok (none, h))
      (fun _ h => if h = 0 then .ok (none, 0) else .error .OutOfGas) 1
      ⟨fun _ => some 0⟩).2 0 rfl⟩

/-- C9: `claim_surcharge` fails with `InvalidSurchargeClaim` for every
origin/`aux_sender` combination other than (signed, `None`) and
(inherent, `Some`), independently of the eviction logic and of the
balance state (so the rejection happens before the contract is touched);
and in the two accepted combinations any reward is deposited to the
signer resp. to `aux_sender`. -/
theorem claim_surcharge_origin_validation (cfg : SurchargeConfig)
    (te : AccountId → BlockNumber → Except CError (Option Balance × Nat))
    (dest : AccountId) (st : CState) :
    (∀ account aux, claim_surcharge cfg te (.signed account) dest (some aux) st
        = (.error .InvalidSurchargeClaim, .yes))
    ∧ (claim_surcharge cfg te .inherent dest none st
        = (.error .InvalidSurchargeClaim, .yes))
    ∧ (∀ aux, claim_surcharge cfg te .root dest aux st
        = (.error .InvalidSurchargeClaim, .yes))
    ∧ (∀ account b rent_payed code_len,
        st.accounts account = some b →
        te dest cfg.signedClaimHandicap = .ok (some rent_payed, code_len) →
        claim_surcharge cfg te (.signed account) dest none st
          = (.ok (st.setAccount account (b + min cfg.surchargeReward rent_payed)), .no))
    ∧ (∀ aux b rent_payed code_len,
        st.accounts aux = some b →
        te dest 0 = .ok (some rent_payed, code_len) →
        claim_surcharge cfg te .inherent dest (some aux) st
          = (.ok (st.setAccount aux (b + min cfg.surchargeReward rent_payed)), .no)) := by
  refine ⟨?_, ?_, ?_, ?_, ?_⟩
  · intro account aux
    simp [claim_surcharge]
  · simp [claim_surcharge]
  · intro aux
    simp [claim_surcharge]
  · intro account b rent_payed code_len hacc hte
    simp [claim_surcharge, hte, deposit_into_existing, hacc]
  · intro aux b rent_payed code_len hacc hte
    simp [claim_surcharge, hte, deposit_into_existing, hacc]

theorem claim_surcharge_origin_validation_witness :
    claim_surcharge ⟨5, 10⟩ (fun _ _ => .ok (some 20, 7)) (.signed 0) 1 (some 2)
        ⟨fun _ => some 100⟩
      = (.error .InvalidSurchargeClaim, .yes)
    ∧ claim_surcharge ⟨5, 10⟩ (fun _ _ => .ok (some 20, 7)) .inherent 1 none
        ⟨fun _ => some 100⟩
      = (.error .InvalidSurchargeClaim, .yes)
    ∧ claim_surcharge ⟨5, 10⟩ (fun _ _ => .ok (some 20, 7)) .root 1 (some 2)
        ⟨fun _ => some 100⟩
      = (.error .InvalidSurchargeClaim, .yes)
    ∧ claim_surcharge ⟨5, 10⟩ (fun _ _ => .ok (some 20, 7)) (.signed 0) 1 none
        ⟨fun _ => some 100⟩
      = (.ok (CState.setAccount ⟨fun _ => some 100⟩ 0 (100 + min 10 20)), .no)
    ∧ claim_surcharge ⟨5, 10⟩ (fun _ _ => .ok (some 20, 7)) .inherent 1 (some 2)
        ⟨fun _ => some 100⟩
      = (.ok (CState.setAccount ⟨fun _ => some 100⟩ 2 (100 + min 10 20)), .no) :=
  ⟨(claim_surcharge_origin_validation ⟨5, 10⟩ (fun _ _ => .ok (some 20, 7)) 1
      ⟨fun _ => some 100⟩).1 0 2,
   (claim_surcharge_origin_validation ⟨5, 10⟩ (fun _ _ => .ok (some 20, 7)) 1
      ⟨fun _ => some 100⟩).2.1,
   (claim_surcharge_origin_validation ⟨5, 10⟩ (fun _ _ => .ok (some 20, 7)) 1
      ⟨fun _ => some 100⟩).2.2.1 (some 2),
   (claim_surcharge_origin_validation ⟨5, 10⟩ (fun _ _ => .ok (some 20, 7)) 1
      ⟨fun _ => some 100⟩).2.2.2.1 0 100 20 7 rfl rfl,
   (claim_surcharge_origin_validation ⟨5, 10⟩ (fun _ _ => .ok (some 20, 7)) 1
      ⟨fun _ => some 100⟩).2.2.2.2 2 100 20 7 rfl rfl⟩

/-- C5: when the instrumentation of a supplied code blob succeeds and the
instrumented length exceeds `MaxCodeSize`, `instantiate_with_code` fails
with `CodeTooLarge`, whatever `ExecutionContext::instantiate` would do —
so instantiation can fail even when the supplied raw binary is below the
limit (the witness exercises exactly that case). -/
theorem instantiate_with_code_post_limit (maxCodeSize : Nat)
    (from_code : Bytes → Except CError PrefabWasmModule)
    (instantiate : PrefabWasmModule → Except CError α)
    (account : AccountId) (code : Bytes) (executable : PrefabWasmModule) :
    from_code code = .ok executable →
    maxCodeSize < executable.code_len →
    instantiate_with_code maxCodeSize from_code instantiate (.signed account) code
      = .error .CodeTooLarge := by
  intro hfc hlen
  by_cases hraw : code.length % 4294967296 ≤ maxCodeSize
  · have hpost : ¬ executable.code_len ≤ maxCodeSize := by omega
    simp [instantiate_with_code, hraw, hfc, hpost]
  · simp [instantiate_with_code, hraw]

theorem instantiate_with_code_post_limit_witness :
    instantiate_with_code 10 (fun _ => .ok ⟨11⟩)
        (fun _ => .ok ()) (.signed 0) [1, 2, 3]
      = .error .CodeTooLarge
    ∧ [1, 2, 3].length ≤ 10 :=
  ⟨instantiate_with_code_post_limit 10 (fun _ => .ok ⟨11⟩) (fun _ => .ok ())
      0 [1, 2, 3] ⟨11⟩ rfl (by decide),
   by decide⟩

/-- C10: every code blob whose raw (pre-instrumentation) byte length
exceeds `MaxCodeSize` is rejected by `instantiate_with_code` with
`CodeTooLarge`, for every instrumentation function and every
instantiation continuation — the check precedes both (lengths are below
the wrap-around of the `as u32` cast, as every real extrinsic is). -/
theorem instantiate_with_code_raw_limit (maxCodeSize : Nat)
    (from_code : Bytes → Except CError PrefabWasmModule)
    (instantiate : PrefabWasmModule → Except CError α)
    (account : AccountId) (code : Bytes) :
    code.length < 4294967296 →
    maxCodeSize < code.length →
    instantiate_with_code maxCodeSize from_code instantiate (.signed account) code
      = .error .CodeTooLarge := by
  intro hsize hlen
  have hraw : ¬ code.length % 4294967296 ≤ maxCodeSize := by
    rw [Nat.mod_eq_of_lt hsize]
    omega
  simp [instantiate_with_code, hraw]

theorem instantiate_with_code_raw_limit_witness :
    instantiate_with_code 2 (fun _ => .error .OutOfGas)
        (fun _ => .ok ()) (.signed 0) [1, 2, 3]
      = .error .CodeTooLarge :=
  instantiate_with_code_raw_limit 2 (fun _ => .error .OutOfGas) (fun _ => .ok ())
    0 [1, 2, 3] (by decide) (by decide)

/-- C6 counterexample: the hook's reported total weight can exceed
`min(DeletionWeightLimit, max_block − already_consumed)`.  With a full
block (limit 0), an idle batch and a base weight of 1, the hook reports
weight 1 > 0: the benchmarked base weight `T::WeightInfo::on_initialize()`
is added on top of the batch's consumption. -/
theorem on_initialize_weight_counterexample :
    ¬ on_initialize 5 5 10 1 (fun _ => 0) ≤ on_initialize_weight_limit 5 5 10 := by
  decide

/-- C6 amended: the limit handed to `process_deletion_queue_batch` equals
exactly `min(DeletionWeightLimit, max_block − already_consumed)`; the
hook's reported total weight is the batch's consumed weight plus the
constant base weight `T::WeightInfo::on_initialize()` (saturating), and
hence — whenever the batch consumes at most its limit — does not exceed
that minimum plus the base weight. -/
theorem on_initialize_weight_spec (maxBlock consumed deletionWeightLimit baseWeight : Weight)
    (batch : Weight → Weight) :
    on_initialize_weight_limit maxBlock consumed deletionWeightLimit
        = min deletionWeightLimit (maxBlock - consumed)
    ∧ on_initialize maxBlock consumed deletionWeightLimit baseWeight batch
        = satAdd (batch (on_initialize_weight_limit maxBlock consumed deletionWeightLimit))
            baseWeight
    ∧ (batch (on_initialize_weight_limit maxBlock consumed deletionWeightLimit)
          ≤ on_initialize_weight_limit maxBlock consumed deletionWeightLimit →
        on_initialize maxBlock consumed deletionWeightLimit baseWeight batch
          ≤ satAdd (on_initialize_weight_limit maxBlock consumed deletionWeightLimit)
              baseWeight) := by
  refine ⟨Nat.min_comm _ _, rfl, ?_⟩
  intro hbatch
  unfold on_initialize satAdd
  exact min_le_min (Nat.add_le_add_right hbatch _) le_rfl

theorem on_initialize_weight_spec_witness :
    on_initialize 10 4 3 2 (fun w => w)
      ≤ satAdd (on_initialize_weight_limit 10 4 3) 2 :=
  (on_initialize_weight_spec 10 4 3 2 (fun w => w)).2.2 (by decide)

end ContractsPallet
